import Mathlib

/-!
Verification development for the visionary-lab backend: a shallow embedding of
the gallery / metadata dual-write subsystem (folder normalization, blob-store
operations, move/delete endpoints, batch operations, the Cosmos metadata layer,
and asset-id derivation), with theorems checking the specified properties.

Strings are modelled by Lean `String` (a wrapper around `List Char`), bytes by
`List Nat`, Python dicts by insertion-ordered association lists, and the two
external stores (Azure Blob Storage, Cosmos DB) by explicit state values that
the translated operations thread through.  Wall-clock timestamps are passed as
explicit `Nat` arguments.  Transport failures of the external services are
injected as explicit Boolean outcome parameters where a claim depends on them.
-/

/-- Whitespace as stripped by Python str.strip / matched by the regex
whitespace class, restricted to the ASCII range (the inputs of interest are
ASCII; the non-ASCII Unicode whitespace code points are not modelled). -/
def isPySpace (c : Char) : Bool :=
  c = ' ' || c = '\t' || c = '\n' || c = '\r' || c = '\x0b' || c = '\x0c'

/-- Python str.strip(): remove leading and trailing whitespace. -/
def pyStripL (l : List Char) : List Char :=
  ((l.dropWhile isPySpace).reverse.dropWhile isPySpace).reverse

/-- Python s.startswith(p), on character lists (first argument the string). -/
def listStartsWith : List Char → List Char → Bool
  | _, [] => true
  | [], _ :: _ => false
  | a :: s, b :: p => if a = b then listStartsWith s p else false

/-- Python s.endswith(p), on character lists. -/
def listEndsWith (s p : List Char) : Bool :=
  listStartsWith s.reverse p.reverse

/-- Python s.endswith(p) on strings. -/
def strEndsWith (s p : String) : Bool :=
  listEndsWith s.data p.data

/-- Python blob_name.split('/')[-1] (the whole string when it has no slash):
the segment after the last '/'. -/
def afterLastSlash (s : String) : String :=
  ⟨(s.data.reverse.takeWhile (fun c => c ≠ '/')).reverse⟩

/-- Everything up to and including the last '/' of a key; used for
"/".join(name.split("/")[:-1]) + "/" and name.rsplit("/", 1)[0] + "/" in the
source (callers guard that the name contains a '/'). -/
def upToLastSlashIncl (l : List Char) : List Char :=
  (l.reverse.dropWhile (fun c => c ≠ '/')).reverse

/-- Python dict assignment d[k] = v on an insertion-ordered association list:
replace in place when the key is present, append otherwise. -/
def dictSet {β : Type} (m : List (String × β)) (k : String) (v : β) :
    List (String × β) :=
  if m.any (fun p => p.1 = k) then
    m.map (fun p => if p.1 = k then (k, v) else p)
  else m ++ [(k, v)]

/-- Python dict lookup d.get(k). -/
def dictGet {β : Type} (m : List (String × β)) (k : String) : Option β :=
  (m.find? (fun p => p.1 = k)).map (fun p => p.2)

/-- re.sub of one-or-more whitespace by a single space: the Boolean argument
records whether the previous character belonged to a whitespace run. -/
def collapseWsAux : Bool → List Char → List Char
  | _, [] => []
  | prevSpace, c :: rest =>
    if isPySpace c then
      if prevSpace then collapseWsAux true rest
      else ' ' :: collapseWsAux true rest
    else c :: collapseWsAux false rest

/-- The characters the metadata-value sanitizer refuses inside the printable
range: < > curly braces [ ] ? # %. -/
def metadataBadChars : List Char :=
  ['<', '>', '\x7b', '\x7d', '[', ']', '?', '#', '%']

/-- One character of the sanitizing loop of _preprocess_metadata_value: keep
printable US-ASCII outside the refused set, replace everything else by '_'. -/
def sanitizeChar (c : Char) : Char :=
  if 32 ≤ c.toNat ∧ c.toNat ≤ 126 then
    if c ∈ metadataBadChars then '_' else c
  else '_'

/-- Python s.split(sep) for a one-character separator: always returns a
non-empty list of (possibly empty) fragments. -/
def pySplit (sep : Char) : List Char → List (List Char)
  | [] => [[]]
  | c :: rest =>
    match pySplit sep rest with
    | [] => [[]]
    | h :: t => if c = sep then [] :: h :: t else (c :: h) :: t

/-- blob_name.split(".")[0].split("/")[-1]: the asset id derived from a
storage key — the last '/'-separated segment of the key's prefix before the
first '.' anywhere in the key. -/
def deriveAssetIdL (name : List Char) : List Char :=
  (pySplit '/' ((pySplit '.' name).headD [])).getLastD []

/-- "/".join(parts): join character-list fragments with '/'. -/
def joinSlash (parts : List (List Char)) : List Char :=
  List.intercalate ['/'] parts

/-- os.path.splitext restricted to the names that occur here: split off the
extension starting at the last '.' of the final path segment (the hidden-file
leading-dot corner case of splitext is not exercised by any claim). -/
def splitExt (s : String) : String × String :=
  let r := s.data.reverse
  let afterDot := r.takeWhile (fun c => c ≠ '.' && c ≠ '/')
  let rest := r.drop afterDot.length
  if rest.head? = some '.' then
    (⟨(rest.drop 1).reverse⟩, ⟨'.' :: afterDot.reverse⟩)
  else (s, "")

/-- backend.models.gallery.MediaType. -/
inductive MediaType where
  | image
  | video
deriving DecidableEq

/-- settings.AZURE_BLOB_IMAGE_CONTAINER (a deployment constant). -/
def imageContainer : String := "images"

/-- settings.AZURE_BLOB_VIDEO_CONTAINER (a deployment constant). -/
def videoContainer : String := "videos"

/-- The container-name resolution shared by the endpoints: an explicit
container overrides media_type; with neither, the request is rejected. -/
def containerOf (container : Option String) (media_type : Option MediaType) :
    Option String :=
  match container with
  | some c => some c
  | none =>
    match media_type with
    | some MediaType.image => some imageContainer
    | some MediaType.video => some videoContainer
    | none => none

/-- One stored blob: content bytes, content type, the service-assigned
timestamps, and the blob metadata map. -/
structure Blob where
  content : List Nat
  contentType : Option String
  creationTime : Nat
  lastModified : Nat
  metadata : List (String × String)
deriving DecidableEq

/-- The object store: ((container, name), blob) entries in insertion order
(the physical service lists by name; no claim below depends on listing
order). -/
structure BlobStore where
  blobs : List ((String × String) × Blob)
deriving DecidableEq

/-- Whether an entry is the blob (container_name, blob_name). -/
def keyMatches (container_name blob_name : String)
    (p : (String × String) × Blob) : Bool :=
  p.1.1 = container_name && p.1.2 = blob_name

/-- Fetch a blob by container and name. -/
def lookupBlob (st : BlobStore) (container_name blob_name : String) :
    Option Blob :=
  (st.blobs.find? (keyMatches container_name blob_name)).map (fun p => p.2)

/-- blob_client.upload_blob(..., overwrite=True): replace the entry in place
when the key exists, append a new entry otherwise. -/
def uploadBlobOverwrite (st : BlobStore) (container_name blob_name : String)
    (b : Blob) : BlobStore :=
  if st.blobs.any (keyMatches container_name blob_name) then
    ⟨st.blobs.map (fun p =>
      if keyMatches container_name blob_name p then
        ((container_name, blob_name), b)
      else p)⟩
  else ⟨st.blobs ++ [((container_name, blob_name), b)]⟩

/-- HTTP-level failures raised by the endpoints. -/
inductive HErr where
  | badRequest (msg : String)
  | notFound (msg : String)
  | server (msg : String)
deriving DecidableEq

namespace AzureBlobStorageService

/-- backend.core.azure_storage.AzureBlobStorageService.normalize_folder_path:
empty input is the root; otherwise trim whitespace, remove one leading slash
when present, and append a slash when the result is non-empty and lacks one.
(The Python parameter is Optional[str]; None takes the same first branch as
the empty string.) -/
def normalize_folder_path (folder_path : String) : String :=
  if folder_path.data = [] then "" else
  let t := pyStripL folder_path.data
  let t := if t.head? = some '/' then t.tail else t
  if t ≠ [] ∧ t.getLast? ≠ some '/' then ⟨t ++ ['/']⟩ else ⟨t⟩

/-- AzureBlobStorageService._preprocess_metadata_value: None becomes the empty
string; otherwise newlines and tabs become spaces, whitespace runs collapse to
one space, each character outside printable US-ASCII or in the refused set
becomes '_', the ends are stripped, and an empty result falls back to "_"
(the final ascii re-encoding in the source can no longer change anything). -/
def _preprocess_metadata_value (value : Option String) : String :=
  match value with
  | none => ""
  | some s =>
    let s1 := s.data.map (fun c =>
      if c = '\n' || c = '\r' || c = '\t' then ' ' else c)
    let s2 := collapseWsAux false s1
    let s3 := s2.map sanitizeChar
    let s4 := pyStripL s3
    if s4 = [] then "_" else ⟨s4⟩

/-- AzureBlobStorageService._get_content_type: MIME type from the lowercased
extension, per media kind, defaulting to application/octet-stream. -/
def _get_content_type (extension : String) (asset_type : MediaType) : String :=
  let e : String := ⟨extension.data.map Char.toLower⟩
  let image_types : List (String × String) :=
    [(".jpg", "image/jpeg"), (".jpeg", "image/jpeg"), (".png", "image/png"),
     (".gif", "image/gif"), (".webp", "image/webp"), (".svg", "image/svg+xml"),
     (".bmp", "image/bmp")]
  let video_types : List (String × String) :=
    [(".mp4", "video/mp4"), (".mov", "video/quicktime"),
     (".avi", "video/x-msvideo"), (".wmv", "video/x-ms-wmv"),
     (".webm", "video/webm"), (".mkv", "video/x-matroska")]
  match asset_type with
  | MediaType.image => (dictGet image_types e).getD "application/octet-stream"
  | MediaType.video => (dictGet video_types e).getD "application/octet-stream"

/-- AzureBlobStorageService.delete_asset: delete_blob succeeds when the blob
exists; ResourceNotFoundError is caught and reported as False. -/
def delete_asset (blob_name container_name : String) (st : BlobStore) :
    Bool × BlobStore :=
  match lookupBlob st container_name blob_name with
  | none => (false, st)
  | some _ =>
    (true, ⟨st.blobs.filter (fun p => !(keyMatches container_name blob_name p))⟩)

/-- AzureBlobStorageService.get_asset_metadata: the blob's metadata map (the
source substitutes an empty dict for missing metadata), None when absent. -/
def get_asset_metadata (blob_name container_name : String) (st : BlobStore) :
    Option (List (String × String)) :=
  (lookupBlob st container_name blob_name).map (fun b => b.metadata)

/-- AzureBlobStorageService.get_asset_content: content bytes and content type,
or None when the blob is absent. -/
def get_asset_content (blob_name container_name : String) (st : BlobStore) :
    Option (List Nat × Option String) :=
  (lookupBlob st container_name blob_name).map (fun b => (b.content, b.contentType))

/-- The ancestor folders recorded by list_folders for one folder path:
parts = folder_path.split("/")[:-1]; for i in range(1, len(parts)) add
"/".join(parts[:i]) + "/". -/
def ancestorsOf (fp : List Char) : List (List Char) :=
  let parts := (pySplit '/' fp).dropLast
  ((List.range parts.length).drop 1).map
    (fun i => joinSlash (parts.take i) ++ ['/'])

/-- AzureBlobStorageService.list_folders: every distinct folder path (with its
ancestors) derived from the keys of one container.  The source returns them
sorted; only membership is consumed by any caller modelled here, so the
set-like accumulation order is left as produced. -/
def list_folders (container_name : String) (st : BlobStore) : List String :=
  st.blobs.foldl (fun acc p =>
    if p.1.1 = container_name ∧ '/' ∈ p.1.2.data then
      let fp := upToLastSlashIncl p.1.2.data
      (ancestorsOf fp).foldl (fun a q => a.insert (⟨q⟩ : String))
        (acc.insert (⟨fp⟩ : String))
    else acc) ([] : List String)

/-- One listing entry of list_blobs, with the fields the endpoints consume
(the blob URL is not modelled). -/
structure BlobEntry where
  name : String
  size : Nat
  content_type : Option String
  creation_time : Nat
  last_modified : Nat
  metadata : List (String × String)
  folder_path : String
deriving DecidableEq

/-- The result shape of list_blobs. -/
structure ListBlobsResult where
  blobs : List BlobEntry
  continuation_token : Option String
  prefixes : List String
deriving DecidableEq

/-- AzureBlobStorageService.list_blobs: one page of the container's keys,
filtered by the optional name prefix, resuming after the opaque marker
(modelled as the name of the last blob of the previous page), at most
min(limit, 5000) entries, with a continuation token when more remain.
The delimiter parameter of the source is dropped before reaching the SDK
(the installed list_blobs has no such parameter), so hierarchy prefixes are
always empty. -/
def list_blobs (container_name : String) (pref : Option String) (limit : Nat)
    (marker : Option String) (st : BlobStore) : ListBlobsResult :=
  let cap := if limit > 5000 then 5000 else limit
  let inContainer : List ((String × String) × Blob) :=
    st.blobs.filter (fun p =>
      p.1.1 = container_name &&
        (match pref with
         | none => true
         | some q => listStartsWith p.1.2.data q.data))
  let afterMarker : List ((String × String) × Blob) :=
    match marker with
    | none => inContainer
    | some m =>
      (inContainer.dropWhile
        (fun (p : (String × String) × Blob) => !(p.1.2 = m))).drop 1
  let page := afterMarker.take cap
  let entries := page.map (fun (p : (String × String) × Blob) =>
    ({ name := p.1.2,
       size := p.2.content.length,
       content_type := p.2.contentType,
       creation_time := p.2.creationTime,
       last_modified := p.2.lastModified,
       metadata := p.2.metadata,
       folder_path :=
         if '/' ∈ p.1.2.data then ⟨upToLastSlashIncl p.1.2.data⟩ else "" } :
      BlobEntry))
  { blobs := entries
    continuation_token :=
      if afterMarker.length > cap then
        match page.getLast? with
        | some p => some p.1.2
        | none => none
      else none
    prefixes := [] }

/-- The result record of AzureBlobStorageService.upload_asset. -/
structure UploadResult where
  file_id : String
  blob_name : String
  container : String
  size : Nat
  content_type : String
  original_filename : String
  metadata : List (String × String)
  folder_path : String
deriving DecidableEq

/-- AzureBlobStorageService.upload_asset: choose the container by media kind,
derive the content type from the extension, normalize the folder, build the
blob name from the provided filename (appending the fresh unique suffix when
that key already exists) or from the generated id when no usable filename was
given, preprocess every metadata value (None values skipped), record the
folder path in the metadata when non-root, and upload with overwrite.  The
uuid4 values of the source are passed in as uniqueSuffix; now is the
service-assigned timestamp; the PIL image-dimension probe is outside the
model. -/
def upload_asset (file_name : String) (asset_type : MediaType)
    (metadata : List (String × Option String)) (folder_path : Option String)
    (uniqueSuffix : String) (now : Nat) (content : List Nat)
    (st : BlobStore) : UploadResult × BlobStore :=
  let container_name :=
    match asset_type with
    | MediaType.image => imageContainer
    | MediaType.video => videoContainer
  let ext := (splitExt file_name).2
  let content_type := _get_content_type ext asset_type
  let normalized := normalize_folder_path (folder_path.getD "")
  let stem := (splitExt file_name).1
  let named := file_name.data ≠ [] ∧ pyStripL file_name.data ≠ []
  let candidate : String := ⟨normalized.data ++ stem.data ++ ext.data⟩
  let chosen : String × String :=
    if named then
      if (lookupBlob st container_name candidate).isSome then
        (⟨normalized.data ++ stem.data ++ ('_' :: uniqueSuffix.data) ++ ext.data⟩,
         ⟨stem.data ++ ('_' :: uniqueSuffix.data)⟩)
      else (candidate, stem)
    else (⟨normalized.data ++ uniqueSuffix.data ++ ext.data⟩, uniqueSuffix)
  let blob_name := chosen.1
  let file_id := chosen.2
  let upload_metadata :=
    metadata.foldl (fun acc kv =>
      match kv.2 with
      | none => acc
      | some v => dictSet acc kv.1 (_preprocess_metadata_value (some v)))
      ([] : List (String × String))
  let upload_metadata :=
    if normalized ≠ "" then dictSet upload_metadata "folder_path" normalized
    else upload_metadata
  let b : Blob :=
    { content := content, contentType := some content_type,
      creationTime := now, lastModified := now, metadata := upload_metadata }
  ({ file_id := file_id, blob_name := blob_name, container := container_name,
     size := content.length, content_type := content_type,
     original_filename := file_name, metadata := upload_metadata,
     folder_path := normalized },
   uploadBlobOverwrite st container_name blob_name b)

end AzureBlobStorageService

namespace CosmosDBService

/-- One metadata document; the timestamp fields of the source documents are
explicit, every other field lives in the open string map. -/
structure AssetDoc where
  id : String
  media_type : String
  created_at : Nat
  updated_at : Nat
  fields : List (String × String)
deriving DecidableEq

/-- The document container, partitioned by media_type with id unique per
partition. -/
abbrev CosmosState := List AssetDoc

/-- The failures of the document container visible to the modelled callers:
a 409 conflict from create_item, and the logical/ValueError absence from
update. -/
inductive CosmosErr where
  | conflict
  | notFound
deriving DecidableEq

/-- The asset_data dict given to create_asset_metadata: optional id and
media_type plus the open fields. -/
structure AssetDataIn where
  id : Option String
  media_type : Option String
  fields : List (String × String)
deriving DecidableEq

/-- CosmosDBService.get_asset_metadata: read by (id, media_type), None when
absent. -/
def get_asset_metadata (asset_id media_type : String) (cs : CosmosState) :
    Option AssetDoc :=
  cs.find? (fun d => d.id = asset_id && d.media_type = media_type)

/-- CosmosDBService.create_asset_metadata: generate an id (the caller-supplied
genId stands for uuid4) when unset, stamp BOTH created_at and updated_at with
the current time, default media_type to "unknown", then container.create_item
— which raises a 409 conflict when the (id, media_type) pair already exists;
it is not an upsert. -/
def create_asset_metadata (now : Nat) (genId : String)
    (asset_data : AssetDataIn) (cs : CosmosState) :
    Except CosmosErr (AssetDoc × CosmosState) :=
  let theId := asset_data.id.getD genId
  let mt := asset_data.media_type.getD "unknown"
  let doc : AssetDoc :=
    { id := theId, media_type := mt, created_at := now, updated_at := now,
      fields := asset_data.fields }
  if cs.any (fun d => d.id = theId && d.media_type = mt) then
    Except.error CosmosErr.conflict
  else Except.ok (doc, cs ++ [doc])

/-- CosmosDBService.update_asset_metadata: fetch the existing item (raising
when absent — callers must not use this to create), merge the update fields
into it dict-style, restamp updated_at with the current time (created_at is
untouched; no caller passes timestamp keys in updates), and replace the
item. -/
def update_asset_metadata (now : Nat) (asset_id media_type : String)
    (updates : List (String × String)) (cs : CosmosState) :
    Except CosmosErr (AssetDoc × CosmosState) :=
  match get_asset_metadata asset_id media_type cs with
  | none => Except.error CosmosErr.notFound
  | some doc =>
    let doc' : AssetDoc :=
      { doc with
        fields := updates.foldl (fun m kv => dictSet m kv.1 kv.2) doc.fields,
        updated_at := now }
    Except.ok (doc', cs.map (fun d =>
      if d.id = asset_id && d.media_type = media_type then doc' else d))

/-- CosmosDBService.delete_asset_metadata: True when the record existed and
was removed, False when it was already absent. -/
def delete_asset_metadata (asset_id media_type : String) (cs : CosmosState) :
    Bool × CosmosState :=
  match get_asset_metadata asset_id media_type cs with
  | none => (false, cs)
  | some _ =>
    (true, cs.filter (fun d => !(d.id = asset_id && d.media_type = media_type)))

end CosmosDBService

namespace Gallery

/-- blob["name"].split(".")[0].split("/")[-1] as written in
gallery.get_gallery_items (and the other gallery listing endpoints). -/
def extractAssetId (blob_name : String) : String :=
  ⟨(pySplit '/' ((pySplit '.' blob_name.data).headD [])).getLastD []⟩

/-- One gallery listing item (the blob URL is not modelled). -/
structure GalleryItem where
  id : String
  name : String
  media_type : MediaType
  container : String
  size : Nat
  content_type : Option String
  creation_time : Nat
  last_modified : Nat
  metadata : List (String × String)
  folder_path : String
deriving DecidableEq

/-- The response of the combined gallery listing. -/
structure GalleryResponse where
  success : Bool
  message : String
  total : Nat
  limit : Nat
  offset : Nat
  items : List GalleryItem
  continuation_token : Option String
  folders : Option (List String)
deriving DecidableEq

/-- The observable read-planner actions of one gallery request: which store a
page was fetched from.  The endpoint below never emits indexQuery. -/
inductive PlanEv where
  | storeList (container : String)
  | indexQuery
deriving DecidableEq

/-- The per-container item construction of get_gallery_items: skip ".folder"
marker blobs, derive the id from the key, carry the listing fields over. -/
def mkGalleryItems (rs : AzureBlobStorageService.ListBlobsResult)
    (mt : MediaType) (container_name : String) : List GalleryItem :=
  (rs.blobs.filter (fun b => !(strEndsWith b.name ".folder"))).map (fun b =>
    ({ id := extractAssetId b.name, name := b.name, media_type := mt,
       container := container_name, size := b.size,
       content_type := b.content_type, creation_time := b.creation_time,
       last_modified := b.last_modified, metadata := b.metadata,
       folder_path := b.folder_path } : GalleryItem))

/-- gallery.get_gallery_items: normalize a supplied folder filter into the
name prefix, list the image container and the video container (one
object-store listing each, both with the same marker), merge, drop folder
markers, sort by last_modified newest-first, slice [offset : offset+limit],
and prefer the image container's continuation token.  The second component
records the store/index reads performed; the Metadata Index is never
consulted by this endpoint. -/
def get_gallery_items (limit offset : Nat) (continuation_token : Option String)
    (pref : Option String) (folder_path : Option String) (st : BlobStore) :
    GalleryResponse × List PlanEv :=
  let pref :=
    match folder_path with
    | some fp => some (AzureBlobStorageService.normalize_folder_path fp)
    | none => pref
  let image_results :=
    AzureBlobStorageService.list_blobs imageContainer pref limit
      continuation_token st
  let video_results :=
    AzureBlobStorageService.list_blobs videoContainer pref limit
      continuation_token st
  let gallery_items :=
    mkGalleryItems image_results MediaType.image imageContainer ++
      mkGalleryItems video_results MediaType.video videoContainer
  let sorted := gallery_items.mergeSort
    (fun a b => decide (b.last_modified ≤ a.last_modified))
  let paginated := (sorted.drop offset).take limit
  let continuation :=
    match image_results.continuation_token with
    | some t => some t
    | none => video_results.continuation_token
  ({ success := true, message := "Gallery items retrieved successfully",
     total := gallery_items.length, limit := limit, offset := offset,
     items := paginated, continuation_token := continuation,
     folders := none },
   [PlanEv.storeList imageContainer, PlanEv.storeList videoContainer])

/-- The response of the single-asset delete endpoint. -/
structure AssetDeleteResponse where
  success : Bool
  message : String
  blob_name : String
  container : String
deriving DecidableEq

/-- gallery.delete_asset: resolve the container, delete the blob from the
object store, and turn a False adapter result into a 404 error.  The endpoint
performs no Metadata Index operation of any kind (its state is the object
store alone). -/
def delete_asset (blob_name : String) (media_type : Option MediaType)
    (container : Option String) (st : BlobStore) :
    Except HErr AssetDeleteResponse × BlobStore :=
  match containerOf container media_type with
  | none =>
    (Except.error (HErr.badRequest
      "Either media_type or container must be specified"), st)
  | some container_name =>
    let r := AzureBlobStorageService.delete_asset blob_name container_name st
    if r.1 then
      (Except.ok { success := true, message := "Asset deleted successfully",
                   blob_name := blob_name, container := container_name },
       r.2)
    else (Except.error (HErr.notFound "Asset not found"), r.2)

end Gallery

namespace Gallery

/-- gallery._move_asset_background: read the source content (an absent blob —
and, through Python truthiness, an empty one — aborts with False), read the
source metadata, build the destination key from the normalized target folder
and the source filename, rewrite folder_path in the metadata, upload to the
destination with overwrite, and only then delete the source key.  Any
exception in the body is caught and reported as False, leaving whatever state
had been reached. -/
def _move_asset_background (blob_name container_name target_folder : String)
    (st : BlobStore) : Bool × BlobStore :=
  match lookupBlob st container_name blob_name with
  | none => (false, st)
  | some b =>
    if b.content = [] then (false, st)
    else
      let metadata := b.metadata
      let file_name := afterLastSlash blob_name
      let normalized_folder :=
        AzureBlobStorageService.normalize_folder_path target_folder
      let new_blob_name : String := ⟨normalized_folder.data ++ file_name.data⟩
      let metadata := dictSet metadata "folder_path" normalized_folder
      let st1 := uploadBlobOverwrite st container_name new_blob_name
        { b with metadata := metadata }
      let r := AzureBlobStorageService.delete_asset blob_name container_name st1
      (true, r.2)

/-- The response of the single-asset move endpoint. -/
structure MoveResponse where
  success : Bool
  message : String
  source : Option String
  destination : Option String
  moved : Bool
  background_task : Bool
deriving DecidableEq

/-- The zero-byte virtual-folder marker blob written before a move into a
folder with no prior presence. -/
def folderMarkerBlob (normalized_folder : String) : Blob :=
  { content := [], contentType := none, creationTime := 0, lastModified := 0,
    metadata := [("is_folder_marker", "true"),
                 ("folder_path", normalized_folder)] }

/-- gallery.move_asset: validate the request, probe the source metadata (the
Python truthiness test turns an empty metadata map into the same 404 as an
absent blob), create a folder marker when the normalized target folder has no
prior presence, compute the destination key, short-circuit a same-folder move
as a no-op, and execute the move in the background for content over 10 MiB
(the store is returned as of the response; the enqueued task is
_move_asset_background) or synchronously otherwise — whose Boolean outcome
the endpoint discards.  The destination-existence check of the source raises
its conflict HTTPException inside a try whose bare except immediately
swallows it, so it has no observable effect and is modelled by nothing. -/
def move_asset (blob_name : String) (container : Option String)
    (media_type : Option MediaType) (target_folder : String) (st : BlobStore) :
    Except HErr MoveResponse × BlobStore :=
  if blob_name = "" then
    (Except.error (HErr.badRequest "Blob name is required"), st)
  else
    let normalized_folder :=
      AzureBlobStorageService.normalize_folder_path target_folder
    match containerOf container media_type with
    | none =>
      (Except.error (HErr.badRequest
        "Either media_type or container must be specified"), st)
    | some container_name =>
      match AzureBlobStorageService.get_asset_metadata blob_name
          container_name st with
      | none => (Except.error (HErr.notFound "Source asset not found"), st)
      | some md =>
        if md = [] then
          (Except.error (HErr.notFound "Source asset not found"), st)
        else
          let file_name := afterLastSlash blob_name
          let new_blob_name : String :=
            ⟨normalized_folder.data ++ file_name.data⟩
          let folders :=
            AzureBlobStorageService.list_folders container_name st
          let st :=
            if ¬ normalized_folder ∈ folders ∧ normalized_folder ≠ "" then
              uploadBlobOverwrite st container_name
                (⟨normalized_folder.data ++ (".folder" : String).data⟩ : String)
                (folderMarkerBlob normalized_folder)
            else st
          let current_folder : String :=
            if '/' ∈ blob_name.data then ⟨upToLastSlashIncl blob_name.data⟩
            else ""
          if current_folder = normalized_folder then
            (Except.ok { success := true,
                         message := "Asset is already in the target folder",
                         source := none, destination := none, moved := false,
                         background_task := false }, st)
          else
            match AzureBlobStorageService.get_asset_content blob_name
                container_name st with
            | none =>
              -- len(None) raises TypeError, reported through the generic
              -- exception handler as a 500
              (Except.error (HErr.server "TypeError"), st)
            | some c =>
              if c.1.length > 10485760 then
                (Except.ok { success := true,
                             message := "Asset move started in background",
                             source := some blob_name,
                             destination := some new_blob_name, moved := true,
                             background_task := true }, st)
              else
                let r := _move_asset_background blob_name container_name
                  target_folder st
                (Except.ok { success := true,
                             message := "Asset moved successfully",
                             source := some blob_name,
                             destination := some new_blob_name, moved := true,
                             background_task := false }, r.2)

end Gallery

namespace Batch

/-- The per-item body shared verbatim by the synchronous loop of
batch.move_multiple_assets and by batch._move_assets_background: read the
source content (absent — or empty, through Python truthiness — aborts the
item with False), read the metadata, build the destination key from the
already-normalized target folder, rewrite folder_path, upload to the
destination with overwrite, then delete the source key.  Unlike the
single-asset path, no same-folder short-circuit and no destination-existence
check precede the item. -/
def _move_one_asset (blob_name container_name target_folder : String)
    (st : BlobStore) : Bool × BlobStore :=
  match lookupBlob st container_name blob_name with
  | none => (false, st)
  | some b =>
    if b.content = [] then (false, st)
    else
      let metadata := b.metadata
      let file_name := afterLastSlash blob_name
      let new_blob_name : String := ⟨target_folder.data ++ file_name.data⟩
      let metadata := dictSet metadata "folder_path" target_folder
      let st1 := uploadBlobOverwrite st container_name new_blob_name
        { b with metadata := metadata }
      let r := AzureBlobStorageService.delete_asset blob_name container_name st1
      (true, r.2)

/-- batch._move_assets_background: apply the per-item move independently to
every name, accumulating the per-item Boolean outcome map. -/
def _move_assets_background (blob_names : List String)
    (container_name target_folder : String) (st : BlobStore) :
    List (String × Bool) × BlobStore :=
  blob_names.foldl (fun acc bn =>
    let r := _move_one_asset bn container_name target_folder acc.2
    (dictSet acc.1 bn r.1, r.2)) (([] : List (String × Bool)), st)

/-- batch._delete_assets_background / the synchronous deletion loop: delete
every name independently, accumulating the per-item Boolean outcome map. -/
def _delete_assets_loop (blob_names : List String) (container_name : String)
    (st : BlobStore) : List (String × Bool) × BlobStore :=
  blob_names.foldl (fun acc bn =>
    let r := AzureBlobStorageService.delete_asset bn container_name acc.2
    (dictSet acc.1 bn r.1, r.2)) (([] : List (String × Bool)), st)

/-- The response of the batch delete endpoint. -/
structure BatchDeleteResponse where
  success : Bool
  message : String
  total : Nat
  results : List (String × Bool)
  background_task : Bool
deriving DecidableEq

/-- The response of the batch move endpoint. -/
structure BatchMoveResponse where
  success : Bool
  message : String
  total : Nat
  results : List (String × Bool)
  target_folder : String
  background_task : Bool
deriving DecidableEq

/-- batch.delete_multiple_assets: reject an empty list, resolve the
container, then — strictly by list size — either hand the whole batch to the
background task and answer at once with background_task = true and an empty
result map (its store effects happen after the response; the response-time
store is returned), or run the deletions synchronously and report the
per-item map, with overall success exactly when no item failed.  The
background threshold is a batch size of 11 (the source tests length > 10). -/
def delete_multiple_assets (blob_names : List String)
    (media_type : Option MediaType) (container : Option String)
    (st : BlobStore) : Except HErr BatchDeleteResponse × BlobStore :=
  if blob_names = [] then
    (Except.error (HErr.badRequest "No blob names provided"), st)
  else
    match containerOf container media_type with
    | none =>
      (Except.error (HErr.badRequest
        "Either media_type or container must be specified"), st)
    | some container_name =>
      if blob_names.length > 10 then
        (Except.ok { success := true,
                     message := "Deletion started in background",
                     total := blob_names.length, results := [],
                     background_task := true }, st)
      else
        let r := _delete_assets_loop blob_names container_name st
        let success_count := (r.1.filter (fun p => p.2)).length
        let failure_count := blob_names.length - success_count
        (Except.ok { success := failure_count = 0,
                     message := "Batch delete finished",
                     total := blob_names.length, results := r.1,
                     background_task := false }, r.2)

/-- batch.move_multiple_assets: reject an empty list, normalize the target
folder, resolve the container, write a folder marker when the normalized
target folder has no prior presence, then — strictly by list size — either
hand the batch to _move_assets_background and answer at once with
background_task = true and an empty result map, or run the per-item moves
synchronously and report the per-item map.  The background threshold is a
batch size of 6 (the source tests length > 5). -/
def move_multiple_assets (blob_names : List String)
    (media_type : Option MediaType) (container : Option String)
    (target_folder : String) (st : BlobStore) :
    Except HErr BatchMoveResponse × BlobStore :=
  if blob_names = [] then
    (Except.error (HErr.badRequest "No blob names provided"), st)
  else
    let normalized_folder :=
      AzureBlobStorageService.normalize_folder_path target_folder
    match containerOf container media_type with
    | none =>
      (Except.error (HErr.badRequest
        "Either media_type or container must be specified"), st)
    | some container_name =>
      let folders := AzureBlobStorageService.list_folders container_name st
      let st :=
        if ¬ normalized_folder ∈ folders ∧ normalized_folder ≠ "" then
          uploadBlobOverwrite st container_name
            (⟨normalized_folder.data ++ (".folder" : String).data⟩ : String)
            (Gallery.folderMarkerBlob normalized_folder)
        else st
      if blob_names.length > 5 then
        (Except.ok { success := true,
                     message := "Move started in background",
                     total := blob_names.length, results := [],
                     target_folder := normalized_folder,
                     background_task := true }, st)
      else
        let r := _move_assets_background blob_names container_name
          normalized_folder st
        let success_count := (r.1.filter (fun p => p.2)).length
        let failure_count := blob_names.length - success_count
        (Except.ok { success := failure_count = 0,
                     message := "Batch move finished",
                     total := blob_names.length, results := r.1,
                     target_folder := normalized_folder,
                     background_task := false }, r.2)

end Batch

namespace Images

/-- images.get_cosmos_service: a Cosmos handle is available exactly when both
the endpoint and key are configured and client initialization succeeds; any
initialization failure is logged and yields None. -/
def get_cosmos_service (endpoint_set key_set init_ok : Bool) : Bool :=
  endpoint_set && key_set && init_ok

/-- The per-image trace of save_generated_images: whether the object-store
put succeeded, and whether (and how) an index write was attempted.  Index
events can only follow a successful put by construction of the save below. -/
inductive SaveEv where
  | putOk
  | putFail
  | indexCreateOk
  | indexCreateFail
deriving DecidableEq

/-- The try/except around the Cosmos write of save_generated_images: any
failure of the metadata creation — a transport failure (injected as
index_fails) or a logical conflict raised by create_item — is caught, logged
as a warning, and swallowed, leaving the index state unchanged. -/
def tryIndexCreate (index_fails : Bool) (now : Nat) (genId : String)
    (record : CosmosDBService.AssetDataIn)
    (cs : CosmosDBService.CosmosState) :
    CosmosDBService.CosmosState × SaveEv :=
  if index_fails then (cs, SaveEv.indexCreateFail)
  else
    match CosmosDBService.create_asset_metadata now genId record cs with
    | Except.ok r => (r.2, SaveEv.indexCreateOk)
    | Except.error _ => (cs, SaveEv.indexCreateFail)

/-- The body of images.save_generated_images for one prepared image (lines
around the blob upload and the Cosmos write): upload to blob storage first —
a failing put raises, is caught by the endpoint-level handler and aborts the
whole operation as a 500 error with both stores untouched; after a successful
put, and only when a Cosmos handle is available, derive the asset id from the
blob name (result["blob_name"].split(".")[0].split("/")[-1]) and try
create_asset_metadata with the asset record — any failure there is swallowed
by tryIndexCreate and the image still counts as saved.  put_fails injects an
object-store transport failure. -/
def save_generated_image (cosmos_service : Bool) (put_fails index_fails : Bool)
    (file_name : String) (folder_path : Option String) (content : List Nat)
    (img_metadata : List (String × Option String)) (uniqueSuffix : String)
    (now : Nat) (st : BlobStore) (cs : CosmosDBService.CosmosState) :
    Except HErr AzureBlobStorageService.UploadResult × BlobStore ×
      CosmosDBService.CosmosState × List SaveEv :=
  if put_fails then
    (Except.error (HErr.server "Error saving generated images"), st, cs,
     [SaveEv.putFail])
  else
    let up := AzureBlobStorageService.upload_asset file_name MediaType.image
      img_metadata folder_path uniqueSuffix now content st
    if cosmos_service then
      let asset_id : String :=
        ⟨(pySplit '/' ((pySplit '.' up.1.blob_name.data).headD [])).getLastD []⟩
      let record : CosmosDBService.AssetDataIn :=
        { id := some asset_id, media_type := some "image",
          fields := [("blob_name", up.1.blob_name),
                     ("container", up.1.container),
                     ("folder_path", up.1.folder_path)] }
      let t := tryIndexCreate index_fails now uniqueSuffix record cs
      (Except.ok up.1, up.2, t.1, [SaveEv.putOk, t.2])
    else (Except.ok up.1, up.2, cs, [SaveEv.putOk])

end Images

namespace MetadataRouter

/-- blob_name.split(".")[0].split("/")[-1] as written in
metadata_router._sync_metadata_background. -/
def extractAssetId (blob_name : String) : String :=
  ⟨(pySplit '/' ((pySplit '.' blob_name.data).headD [])).getLastD []⟩

end MetadataRouter


/-- Decidable equality of endpoint results. -/
instance {ε α : Type} [DecidableEq ε] [DecidableEq α] :
    DecidableEq (Except ε α) := fun a b =>
  match a, b with
  | Except.ok x, Except.ok y =>
    if h : x = y then isTrue (by rw [h]) else isFalse (by simp [h])
  | Except.error x, Except.error y =>
    if h : x = y then isTrue (by rw [h]) else isFalse (by simp [h])
  | Except.ok _, Except.error _ => isFalse (by simp)
  | Except.error _, Except.ok _ => isFalse (by simp)

/-! Helper lemmas about the store primitives. -/

theorem find?_filter_not {α : Type} (q : α → Bool) (l : List α) :
    (l.filter (fun a => !q a)).find? q = none := by
  induction l with
  | nil => rfl
  | cons a t ih =>
    cases ha : q a with
    | true =>
      rw [List.filter_cons_of_neg (by simp [ha])]
      exact ih
    | false =>
      rw [List.filter_cons_of_pos (by simp [ha]),
        List.find?_cons_of_neg _ (by simp [ha])]
      exact ih

theorem find?_append_none {α : Type} (q : α → Bool) (l₁ l₂ : List α)
    (h : l₁.find? q = none) : (l₁ ++ l₂).find? q = l₂.find? q := by
  induction l₁ with
  | nil => rfl
  | cons a t ih =>
    cases ha : q a with
    | true => rw [List.find?_cons_of_pos _ ha] at h; exact absurd h (by simp)
    | false =>
      rw [List.find?_cons_of_neg _ (by simp [ha])] at h
      rw [List.cons_append, List.find?_cons_of_neg _ (by simp [ha])]
      exact ih h

theorem find?_map_replace {α : Type} (q : α → Bool) (x : α) (hx : q x = true)
    (l : List α) (h : l.any q = true) :
    (l.map (fun a => if q a then x else a)).find? q = some x := by
  induction l with
  | nil => simp at h
  | cons a t ih =>
    cases ha : q a with
    | true =>
      rw [List.map_cons, if_pos ha, List.find?_cons_of_pos _ hx]
    | false =>
      rw [List.any_cons, ha, Bool.false_or] at h
      rw [List.map_cons, if_neg (by simp [ha]), List.find?_cons_of_neg _ (by simp [ha])]
      exact ih h

theorem lookupBlob_upload_self (st : BlobStore) (cn k : String) (b : Blob) :
    lookupBlob (uploadBlobOverwrite st cn k b) cn k = some b := by
  have hx : keyMatches cn k ((cn, k), b) = true := by simp [keyMatches]
  unfold uploadBlobOverwrite lookupBlob
  by_cases h : st.blobs.any (keyMatches cn k) = true
  · rw [if_pos h]
    show Option.map _ (List.find? _ (st.blobs.map _)) = some b
    rw [find?_map_replace (keyMatches cn k) ((cn, k), b) hx st.blobs h]
    rfl
  · rw [if_neg h]
    show Option.map _ (List.find? _ (st.blobs ++ [((cn, k), b)])) = some b
    have hnone : st.blobs.find? (keyMatches cn k) = none := by
      rw [List.find?_eq_none]
      intro p hp hq
      exact h (List.any_eq_true.mpr ⟨p, hp, hq⟩)
    rw [find?_append_none _ _ _ hnone, List.find?_cons_of_pos _ hx]
    rfl

theorem lookupBlob_delete_self (name cn : String) (st : BlobStore) (b : Blob)
    (h : lookupBlob st cn name = some b) :
    (AzureBlobStorageService.delete_asset name cn st).1 = true ∧
      lookupBlob (AzureBlobStorageService.delete_asset name cn st).2 cn name =
        none := by
  unfold AzureBlobStorageService.delete_asset
  rw [h]
  refine ⟨rfl, ?_⟩
  unfold lookupBlob
  show Option.map _ (List.find? _ (st.blobs.filter _)) = none
  rw [find?_filter_not (keyMatches cn name) st.blobs]
  rfl

theorem dictSet_ne_nil {β : Type} (m : List (String × β)) (k : String)
    (v : β) : dictSet m k v ≠ [] := by
  unfold dictSet
  by_cases h : m.any (fun p => p.1 = k) = true
  · rw [if_pos h]
    intro hm
    rw [List.map_eq_nil_iff] at hm
    subst hm
    simp at h
  · rw [if_neg h]
    simp

/-! C2 and C3: the move operations, evaluated at their failing inputs. -/

/-- C2: the claim "in every move operation (single or batch, foreground or
background) ... at all times at least one of the source and destination keys
holds the full original content, and after a successful move exactly the
destination holds it" fails on the batch path: moving pets/cat.png into its
own folder pets/ makes the destination key equal the source key, so the
overwrite-copy is followed by a delete of that very key — the item is
reported successful (True) while the blob has been erased from the store
entirely.  The single-asset endpoint short-circuits the same-folder case; the
batch path has no such guard. -/
theorem C2_batch_move_data_loss :
    Batch._move_assets_background ["pets/cat.png"] "images" "pets/"
      ⟨[(("images", "pets/cat.png"),
         { content := [1, 2, 3], contentType := some "image/png",
           creationTime := 0, lastModified := 0,
           metadata := [("folder_path", "pets/")] })]⟩ =
      ([("pets/cat.png", true)], ⟨[]⟩) := by
  decide

/-- C3: the claim "for every move request whose computed destination key
already holds an existing object, the move aborts with a Conflict error and
neither asset is modified" fails: the destination-existence check of
gallery.move_asset raises its conflict HTTPException inside a try whose bare
except swallows it, so with pets/cat.png (content bytes 9) already present,
moving a/cat.png (content bytes 1,2,3) into pets/ reports success, silently
overwrites the destination with the source content, and deletes the
source. -/
theorem C3_move_conflict_swallowed :
    (Gallery.move_asset "a/cat.png" (some "images") none "pets"
        ⟨[(("images", "a/cat.png"),
           { content := [1, 2, 3], contentType := some "image/png",
             creationTime := 0, lastModified := 0,
             metadata := [("folder_path", "a/")] }),
          (("images", "pets/cat.png"),
           { content := [9], contentType := some "image/png",
             creationTime := 0, lastModified := 0,
             metadata := [("folder_path", "pets/")] })]⟩).1 =
      Except.ok { success := true, message := "Asset moved successfully",
                  source := some "a/cat.png",
                  destination := some "pets/cat.png", moved := true,
                  background_task := false } ∧
    lookupBlob (Gallery.move_asset "a/cat.png" (some "images") none "pets"
        ⟨[(("images", "a/cat.png"),
           { content := [1, 2, 3], contentType := some "image/png",
             creationTime := 0, lastModified := 0,
             metadata := [("folder_path", "a/")] }),
          (("images", "pets/cat.png"),
           { content := [9], contentType := some "image/png",
             creationTime := 0, lastModified := 0,
             metadata := [("folder_path", "pets/")] })]⟩).2
        "images" "pets/cat.png" =
      some { content := [1, 2, 3], contentType := some "image/png",
             creationTime := 0, lastModified := 0,
             metadata := [("folder_path", "pets/")] } ∧
    lookupBlob (Gallery.move_asset "a/cat.png" (some "images") none "pets"
        ⟨[(("images", "a/cat.png"),
           { content := [1, 2, 3], contentType := some "image/png",
             creationTime := 0, lastModified := 0,
             metadata := [("folder_path", "a/")] }),
          (("images", "pets/cat.png"),
           { content := [9], contentType := some "image/png",
             creationTime := 0, lastModified := 0,
             metadata := [("folder_path", "pets/")] })]⟩).2
        "images" "a/cat.png" = none := by
  refine ⟨?_, ?_, ?_⟩ <;> decide

/-! C4: single-asset delete. -/

/-- C4 counterexample: the claim says a False adapter result (blob already
absent) "is not an error" for the caller of the delete operation; but the
endpoint turns the False result for an absent blob into a 404 error (and it
performs no Metadata Index operation at all — its only state is the object
store). -/
theorem C4_delete_counterexample :
    (Gallery.delete_asset "x.png" (some MediaType.image) none ⟨[]⟩).1 =
      Except.error (HErr.notFound "Asset not found") := by
  decide

/-- C4 amended: the single-asset delete endpoint touches only the object
store — no Metadata Index delete precedes it (the endpoint's state is the
blob store alone).  At the adapter level, deleting an absent key returns
False without raising and deleting it again still returns False, and a
present key is deleted with result True; at the endpoint level the adapter's
True becomes the success response while False is surfaced as a 404 error
rather than as a non-error result. -/
theorem C4_delete_amended (name cn : String) (st : BlobStore) :
    (lookupBlob st cn name = none →
      AzureBlobStorageService.delete_asset name cn st = (false, st) ∧
      AzureBlobStorageService.delete_asset name cn
        (AzureBlobStorageService.delete_asset name cn st).2 = (false, st) ∧
      (Gallery.delete_asset name none (some cn) st).1 =
        Except.error (HErr.notFound "Asset not found")) ∧
    (∀ b, lookupBlob st cn name = some b →
      (AzureBlobStorageService.delete_asset name cn st).1 = true ∧
      lookupBlob (AzureBlobStorageService.delete_asset name cn st).2 cn name =
        none ∧
      (Gallery.delete_asset name none (some cn) st).1 =
        Except.ok { success := true, message := "Asset deleted successfully",
                    blob_name := name, container := cn }) := by
  constructor
  · intro h
    have hdel : AzureBlobStorageService.delete_asset name cn st =
        (false, st) := by
      unfold AzureBlobStorageService.delete_asset
      rw [h]
    refine ⟨hdel, by rw [hdel]; exact hdel, ?_⟩
    simp [Gallery.delete_asset, containerOf, hdel]
  · intro b h
    have hdel := lookupBlob_delete_self name cn st b h
    refine ⟨hdel.1, hdel.2, ?_⟩
    simp [Gallery.delete_asset, containerOf,
      AzureBlobStorageService.delete_asset, h]

/-- C4 witness: the amended delete behavior evaluated on a one-blob store and
on the empty store. -/
theorem C4_delete_amended_witness :
    AzureBlobStorageService.delete_asset "x.png" "images" ⟨[]⟩ =
      (false, ⟨[]⟩) ∧
    (AzureBlobStorageService.delete_asset "x.png" "images"
      ⟨[(("images", "x.png"),
         { content := [7], contentType := none, creationTime := 0,
           lastModified := 0, metadata := [] })]⟩).1 = true := by
  constructor
  · exact ((C4_delete_amended "x.png" "images" ⟨[]⟩).1 (by decide)).1
  · exact ((C4_delete_amended "x.png" "images"
      ⟨[(("images", "x.png"),
         { content := [7], contentType := none, creationTime := 0,
           lastModified := 0, metadata := [] })]⟩).2
      { content := [7], contentType := none, creationTime := 0,
        lastModified := 0, metadata := [] } (by decide)).1

/-! C5: folder-path normalization. -/

theorem head?_append_left {α : Type} (l₁ l₂ : List α) (h : l₁ ≠ []) :
    (l₁ ++ l₂).head? = l₁.head? := by
  cases l₁ with
  | nil => exact absurd rfl h
  | cons a t => rfl

theorem dropWhile_head_not {α : Type} (p : α → Bool) (l : List α) (a : α)
    (h : (l.dropWhile p).head? = some a) : p a = false := by
  induction l with
  | nil => simp at h
  | cons x t ih =>
    rw [List.dropWhile_cons] at h
    by_cases hx : p x = true
    · rw [if_pos hx] at h
      exact ih h
    · rw [if_neg hx] at h
      simp at h
      rw [h] at hx
      simpa using hx

theorem dropWhile_eq_self_of_head {α : Type} (p : α → Bool) (l : List α)
    (h : ∀ a, l.head? = some a → p a = false) : l.dropWhile p = l := by
  cases l with
  | nil => rfl
  | cons x t =>
    rw [List.dropWhile_cons, if_neg]
    simp [h x rfl]

theorem dropWhile_getLast {α : Type} (p : α → Bool) (m : List α)
    (hne : m.dropWhile p ≠ []) : (m.dropWhile p).getLast? = m.getLast? := by
  induction m with
  | nil => simp at hne
  | cons x t ih =>
    rw [List.dropWhile_cons] at hne ⊢
    by_cases hx : p x = true
    · rw [if_pos hx] at hne ⊢
      have ht : t ≠ [] := by
        intro h0
        rw [h0] at hne
        simp [List.dropWhile] at hne
      obtain ⟨y, t', rfl⟩ := List.exists_cons_of_ne_nil ht
      rw [List.getLast?_cons_cons]
      exact ih hne
    · rw [if_neg hx]

theorem pyStripL_getLast (l : List Char) (a : Char)
    (h : (pyStripL l).getLast? = some a) : isPySpace a = false := by
  unfold pyStripL at h
  rw [List.getLast?_reverse] at h
  exact dropWhile_head_not isPySpace _ a h

theorem pyStripL_head (l : List Char) (a : Char)
    (h : (pyStripL l).head? = some a) : isPySpace a = false := by
  unfold pyStripL at h
  rw [List.head?_reverse] at h
  have hne : (l.dropWhile isPySpace).reverse.dropWhile isPySpace ≠ [] := by
    intro h0
    rw [h0] at h
    simp at h
  rw [dropWhile_getLast isPySpace _ hne, List.getLast?_reverse] at h
  exact dropWhile_head_not isPySpace _ a h

theorem pyStripL_fix (l : List Char)
    (h1 : ∀ a, l.head? = some a → isPySpace a = false)
    (h2 : ∀ a, l.getLast? = some a → isPySpace a = false) : pyStripL l = l := by
  unfold pyStripL
  rw [dropWhile_eq_self_of_head isPySpace l h1]
  rw [dropWhile_eq_self_of_head isPySpace l.reverse (by
    intro a ha
    rw [List.head?_reverse] at ha
    exact h2 a ha)]
  exact List.reverse_reverse l

theorem normalize_eq_of_head_ne_slash (s : String) (h0 : s.data ≠ [])
    (h : (pyStripL s.data).head? ≠ some '/') :
    AzureBlobStorageService.normalize_folder_path s =
      if pyStripL s.data ≠ [] ∧ (pyStripL s.data).getLast? ≠ some '/' then
        (⟨pyStripL s.data ++ ['/']⟩ : String)
      else ⟨pyStripL s.data⟩ := by
  simp only [AzureBlobStorageService.normalize_folder_path]
  rw [if_neg h0, if_neg h]

/-- C5 counterexample: normalization is not idempotent for all strings, and
it does not ensure exactly one trailing separator.  Only one leading slash is
stripped, so normalize("//a") = "/a/" while a second application gives "a/";
and "a//" already ends with a slash, so its doubled trailing separator is
kept as-is. -/
theorem C5_normalize_counterexample :
    AzureBlobStorageService.normalize_folder_path
        (AzureBlobStorageService.normalize_folder_path "//a") ≠
      AzureBlobStorageService.normalize_folder_path "//a" ∧
    AzureBlobStorageService.normalize_folder_path "//a" = "/a/" ∧
    AzureBlobStorageService.normalize_folder_path "a//" = "a//" := by
  refine ⟨?_, ?_, ?_⟩ <;> decide

/-- C5 amended: the three specified normalization equations hold; the result
is always the root or slash-terminated (at least one trailing separator —
repeated trailing separators are not collapsed); and normalization is
idempotent for every string whose stripped form does not begin with a
separator (in particular for every already-normalized path), though not for
all strings. -/
theorem C5_normalize_amended :
    (AzureBlobStorageService.normalize_folder_path "" = "" ∧
     AzureBlobStorageService.normalize_folder_path "a/b" = "a/b/" ∧
     AzureBlobStorageService.normalize_folder_path "/a/b/" = "a/b/") ∧
    (∀ s : String,
      AzureBlobStorageService.normalize_folder_path s = "" ∨
      (AzureBlobStorageService.normalize_folder_path s).data.getLast? =
        some '/') ∧
    (∀ s : String, (pyStripL s.data).head? ≠ some '/' →
      AzureBlobStorageService.normalize_folder_path
          (AzureBlobStorageService.normalize_folder_path s) =
        AzureBlobStorageService.normalize_folder_path s) := by
  refine ⟨by refine ⟨?_, ?_, ?_⟩ <;> decide, ?_, ?_⟩
  · intro s
    by_cases h0 : s.data = []
    · left
      simp only [AzureBlobStorageService.normalize_folder_path]
      rw [if_pos h0]
    · simp only [AzureBlobStorageService.normalize_folder_path]
      rw [if_neg h0]
      generalize (if (pyStripL s.data).head? = some '/' then
        (pyStripL s.data).tail else pyStripL s.data) = u
      by_cases hc : u ≠ [] ∧ u.getLast? ≠ some '/'
      · right
        rw [if_pos hc]
        show (u ++ ['/']).getLast? = some '/'
        exact List.getLast?_concat u
      · rw [if_neg hc]
        by_cases hu : u = []
        · left
          rw [hu]
        · right
          show u.getLast? = some '/'
          rcases not_and_or.mp hc with h | h
          · exact absurd hu (by simpa using h)
          · simpa using h
  · intro s h
    by_cases h0 : s.data = []
    · have e : AzureBlobStorageService.normalize_folder_path s = "" := by
        simp only [AzureBlobStorageService.normalize_folder_path]
        rw [if_pos h0]
      rw [e]
      decide
    · have e := normalize_eq_of_head_ne_slash s h0 h
      by_cases h1 : pyStripL s.data = []
      · have e2 : AzureBlobStorageService.normalize_folder_path s = "" := by
          rw [e, if_neg (by simp [h1])]
          rw [h1]
        rw [e2]
        decide
      · by_cases h2 : (pyStripL s.data).getLast? = some '/'
        · have e2 : AzureBlobStorageService.normalize_folder_path s =
              ⟨pyStripL s.data⟩ := by
            rw [e, if_neg (by simp [h2])]
          have hfix : pyStripL (pyStripL s.data) = pyStripL s.data :=
            pyStripL_fix _ (fun a ha => pyStripL_head s.data a ha)
              (fun a ha => pyStripL_getLast s.data a ha)
          have e3 : AzureBlobStorageService.normalize_folder_path
              (⟨pyStripL s.data⟩ : String) = ⟨pyStripL s.data⟩ := by
            rw [normalize_eq_of_head_ne_slash ⟨pyStripL s.data⟩ h1
              (by show (pyStripL (pyStripL s.data)).head? ≠ some '/'
                  rw [hfix]; exact h)]
            rw [(by rfl : ((⟨pyStripL s.data⟩ : String)).data = pyStripL s.data),
              hfix, if_neg (by simp [h2])]
          rw [e2, e3]
        · have e2 : AzureBlobStorageService.normalize_folder_path s =
              ⟨pyStripL s.data ++ ['/']⟩ := by
            rw [e, if_pos ⟨h1, h2⟩]
          have hdata : ((⟨pyStripL s.data ++ ['/']⟩ : String)).data =
              pyStripL s.data ++ ['/'] := rfl
          have hne : pyStripL s.data ++ ['/'] ≠ [] := by simp
          have hfix : pyStripL (pyStripL s.data ++ ['/']) =
              pyStripL s.data ++ ['/'] := by
            refine pyStripL_fix _ ?_ ?_
            · intro a ha
              rw [head?_append_left _ _ h1] at ha
              exact pyStripL_head s.data a ha
            · intro a ha
              rw [List.getLast?_concat] at ha
              have : a = '/' := by simpa using ha.symm
              rw [this]
              decide
          have e3 : AzureBlobStorageService.normalize_folder_path
              (⟨pyStripL s.data ++ ['/']⟩ : String) =
              ⟨pyStripL s.data ++ ['/']⟩ := by
            rw [normalize_eq_of_head_ne_slash ⟨pyStripL s.data ++ ['/']⟩
              (by rw [hdata]; exact hne)
              (by rw [hdata, hfix, head?_append_left _ _ h1]; exact h)]
            rw [hdata, hfix,
              if_neg (by simp [List.getLast?_concat])]
          rw [e2, e3]

/-- C5 witness: the amended statement applied at the concrete strings "x"
(whose stripped form does not start with a separator) and "a". -/
theorem C5_normalize_amended_witness :
    (AzureBlobStorageService.normalize_folder_path "x" = "" ∨
      (AzureBlobStorageService.normalize_folder_path "x").data.getLast? =
        some '/') ∧
    AzureBlobStorageService.normalize_folder_path
        (AzureBlobStorageService.normalize_folder_path "a") =
      AzureBlobStorageService.normalize_folder_path "a" :=
  ⟨C5_normalize_amended.2.1 "x",
   C5_normalize_amended.2.2 "a" (by decide)⟩

/-! C9: metadata-value preprocessing. -/

theorem pyStripL_mem (l : List Char) (c : Char) (h : c ∈ pyStripL l) :
    c ∈ l := by
  unfold pyStripL at h
  rw [List.mem_reverse] at h
  have h2 := List.Sublist.mem h (List.dropWhile_sublist isPySpace)
  rw [List.mem_reverse] at h2
  exact List.Sublist.mem h2 (List.dropWhile_sublist isPySpace)

theorem sanitizeChar_ok (c : Char) :
    32 ≤ (sanitizeChar c).toNat ∧ (sanitizeChar c).toNat ≤ 126 ∧
      sanitizeChar c ∉ metadataBadChars := by
  unfold sanitizeChar
  by_cases h : 32 ≤ c.toNat ∧ c.toNat ≤ 126
  · rw [if_pos h]
    by_cases hb : c ∈ metadataBadChars
    · rw [if_pos hb]
      decide
    · rw [if_neg hb]
      exact ⟨h.1, h.2, hb⟩
  · rw [if_neg h]
    decide

/-- C9 counterexample: the claim says the preprocessing returns a non-empty
string "for every metadata value (any string, or None)" — but for None the
source returns the empty string immediately. -/
theorem C9_preprocess_counterexample :
    (AzureBlobStorageService._preprocess_metadata_value none).data = [] := by
  decide

/-- C9 amended: for None the preprocessing returns the empty string; for
every string it terminates with a non-empty result made solely of printable
US-ASCII characters (codes 32-126) outside the refused set
(the angle brackets, braces, square brackets, question mark, hash and
percent are replaced by underscores, as is everything non-printable or
non-ASCII). -/
theorem C9_preprocess_amended (s : String) :
    (AzureBlobStorageService._preprocess_metadata_value (some s)).data ≠ [] ∧
    ∀ c ∈ (AzureBlobStorageService._preprocess_metadata_value (some s)).data,
      32 ≤ c.toNat ∧ c.toNat ≤ 126 ∧ c ∉ metadataBadChars := by
  simp only [AzureBlobStorageService._preprocess_metadata_value]
  by_cases h : pyStripL ((collapseWsAux false (s.data.map (fun c =>
      if c = '\n' || c = '\r' || c = '\t' then ' ' else c))).map sanitizeChar)
      = []
  · rw [if_pos h]
    constructor
    · decide
    · intro c hc
      have : c = '_' := by simpa using hc
      rw [this]
      decide
  · rw [if_neg h]
    refine ⟨h, ?_⟩
    intro c hc
    have hc2 : c ∈ (collapseWsAux false (s.data.map (fun c =>
        if c = '\n' || c = '\r' || c = '\t' then ' ' else c))).map
        sanitizeChar := pyStripL_mem _ c hc
    rw [List.mem_map] at hc2
    obtain ⟨c', _, rfl⟩ := hc2
    exact sanitizeChar_ok c'

/-- C9 witness: the amended statement at the concrete string containing a
non-ASCII character and a refused bracket. -/
theorem C9_preprocess_amended_witness :
    (AzureBlobStorageService._preprocess_metadata_value (some "a<é")).data ≠ []
    := (C9_preprocess_amended "a<é").1

/-! C10: asset-id derivation from storage keys. -/

theorem pySplit_ne_nil (sep : Char) (l : List Char) : pySplit sep l ≠ [] := by
  cases l with
  | nil => simp [pySplit]
  | cons c rest =>
    simp only [pySplit]
    cases h : pySplit sep rest with
    | nil => simp
    | cons a t =>
      by_cases hc : c = sep
      · simp [hc]
      · simp [hc]

theorem headD_pySplit (sep : Char) (l : List Char) :
    (pySplit sep l).headD [] = l.takeWhile (fun c => c ≠ sep) := by
  induction l with
  | nil => rfl
  | cons c rest ih =>
    simp only [pySplit]
    cases h : pySplit sep rest with
    | nil => exact absurd h (pySplit_ne_nil sep rest)
    | cons a t =>
      rw [h] at ih
      by_cases hc : c = sep
      · subst hc
        simp [List.takeWhile_cons]
      · simpa [hc, List.takeWhile_cons] using ih

theorem pySplit_not_mem (sep : Char) (l : List Char) (h : sep ∉ l) :
    pySplit sep l = [l] := by
  induction l with
  | nil => rfl
  | cons c rest ih =>
    rw [List.mem_cons, not_or] at h
    simp only [pySplit]
    rw [ih h.2]
    have hc : ¬ c = sep := fun e => h.1 e.symm
    simp [hc]

theorem pySplit_length_two (sep : Char) (l : List Char) (h : sep ∈ l) :
    2 ≤ (pySplit sep l).length := by
  induction l with
  | nil => simp at h
  | cons c rest ih =>
    simp only [pySplit]
    cases hr : pySplit sep rest with
    | nil => exact absurd hr (pySplit_ne_nil sep rest)
    | cons a t =>
      by_cases hc : c = sep
      · simp [hc]
      · rw [List.mem_cons] at h
        rcases h with h | h
        · exact absurd h.symm hc
        · have h2 := ih h
          rw [hr] at h2
          simp only [List.length_cons] at h2 ⊢
          simp [hc]
          omega

theorem getLastD_pySplit_append (sep : Char) (xs ys : List Char) :
    (pySplit sep (xs ++ sep :: ys)).getLastD [] =
      (pySplit sep ys).getLastD [] := by
  induction xs with
  | nil =>
    simp only [List.nil_append, pySplit]
    cases hr : pySplit sep ys with
    | nil => exact absurd hr (pySplit_ne_nil sep ys)
    | cons a t => simp
  | cons x xs' ih =>
    simp only [List.cons_append, pySplit]
    cases hr : pySplit sep (xs' ++ sep :: ys) with
    | nil => exact absurd hr (pySplit_ne_nil sep (xs' ++ sep :: ys))
    | cons a t =>
      rw [hr] at ih
      by_cases hc : x = sep
      · simpa [hc] using ih
      · have h2 : sep ∈ xs' ++ sep :: ys := by simp
        have hlen := pySplit_length_two sep _ h2
        rw [hr] at hlen
        have ht : t ≠ [] := by
          intro h0
          rw [h0] at hlen
          simp at hlen
        obtain ⟨y, t', rfl⟩ := List.exists_cons_of_ne_nil ht
        simpa [hc] using ih

theorem takeWhile_append_all {α : Type} (p : α → Bool) (xs ys : List α)
    (h : ∀ a ∈ xs, p a = true) :
    (xs ++ ys).takeWhile p = xs ++ ys.takeWhile p := by
  induction xs with
  | nil => rfl
  | cons a t ih =>
    rw [List.cons_append, List.takeWhile_cons,
      if_pos (h a (List.mem_cons_self a t)), ih (fun b hb =>
        h b (List.mem_cons_of_mem a hb)), List.cons_append]

/-- C10: the gallery listing and the metadata reconciliation sweep derive the
asset id from a storage key by the same function (both compute
split(".")[0].split("/")[-1]); for a key folder/name.ext whose folder
contains no '.' the id is exactly the dot-free filename stem; and when a
folder segment contains a '.' the derived id comes from that folder segment
instead of the filename, as on a.b/c.png where the id is "a". -/
theorem C10_asset_id_agreement :
    (∀ n : String,
      Gallery.extractAssetId n = MetadataRouter.extractAssetId n) ∧
    (∀ folder name ext : List Char,
      '.' ∉ folder → '.' ∉ name → '/' ∉ name →
      deriveAssetIdL (folder ++ '/' :: (name ++ '.' :: ext)) = name) ∧
    Gallery.extractAssetId "a.b/c.png" = "a" := by
  refine ⟨fun n => rfl, ?_, by decide⟩
  intro folder name ext hf hn hs
  unfold deriveAssetIdL
  rw [headD_pySplit]
  have h1 : (folder ++ '/' :: (name ++ '.' :: ext)).takeWhile
      (fun c => c ≠ '.') = folder ++ '/' :: name := by
    rw [takeWhile_append_all _ folder _ (fun a ha => by
      simp only [decide_eq_true_eq]
      intro e
      exact hf (e ▸ ha))]
    rw [List.takeWhile_cons, if_pos (by decide)]
    rw [takeWhile_append_all _ name _ (fun a ha => by
      simp only [decide_eq_true_eq]
      intro e
      exact hn (e ▸ ha))]
    rw [List.takeWhile_cons, if_neg (by decide)]
    simp
  rw [h1, getLastD_pySplit_append '/' folder name,
    pySplit_not_mem '/' name hs]
  rfl

/-- C10 witness: the common derivation evaluated at pets/cat.png. -/
theorem C10_asset_id_agreement_witness :
    deriveAssetIdL
        (['p', 'e', 't', 's'] ++ '/' ::
          (['c', 'a', 't'] ++ '.' :: ['p', 'n', 'g'])) = ['c', 'a', 't'] :=
  C10_asset_id_agreement.2.1 ['p', 'e', 't', 's'] ['c', 'a', 't']
    ['p', 'n', 'g'] (by decide) (by decide) (by decide)

/-! C8: metadata-index create/update semantics. -/

/-- C8 counterexample: the claim says an upsert of an already-present id
"succeeds as an update rather than failing" and that created_at is then left
unchanged; but create_asset_metadata calls create_item, which raises a 409
conflict when the (id, media_type) pair already exists — it never updates. -/
theorem C8_upsert_counterexample :
    CosmosDBService.create_asset_metadata 5 "gen"
        { id := some "x", media_type := some "image", fields := [] }
        [{ id := "x", media_type := "image", created_at := 0, updated_at := 0,
           fields := [] }] =
      Except.error CosmosDBService.CosmosErr.conflict := by
  decide

/-- C8 amended: create_asset_metadata generates an id (uuid4, passed as
genId) when the record has none and stamps BOTH created_at and updated_at
with the current time, but it is create-only — an already-present
(id, media_type) pair makes it fail with a conflict instead of updating.
The separate update_asset_metadata restamps updated_at on every write,
leaves created_at unchanged, and fails with NotFound when the pair is
absent. -/
theorem C8_upsert_amended (now : Nat) (genId : String)
    (ad : CosmosDBService.AssetDataIn) (cs : CosmosDBService.CosmosState)
    (i mt : String) (ups : List (String × String)) :
    (∀ d cs',
      CosmosDBService.create_asset_metadata now genId ad cs =
        Except.ok (d, cs') →
      d.created_at = now ∧ d.updated_at = now ∧
        (ad.id = none → d.id = genId)) ∧
    ((∃ d ∈ cs, d.id = ad.id.getD genId ∧
        d.media_type = ad.media_type.getD "unknown") →
      CosmosDBService.create_asset_metadata now genId ad cs =
        Except.error CosmosDBService.CosmosErr.conflict) ∧
    (∀ doc, CosmosDBService.get_asset_metadata i mt cs = some doc →
      ∀ d cs',
        CosmosDBService.update_asset_metadata now i mt ups cs =
          Except.ok (d, cs') →
        d.updated_at = now ∧ d.created_at = doc.created_at) ∧
    (CosmosDBService.get_asset_metadata i mt cs = none →
      CosmosDBService.update_asset_metadata now i mt ups cs =
        Except.error CosmosDBService.CosmosErr.notFound) := by
  refine ⟨?_, ?_, ?_, ?_⟩
  · intro d cs' h
    simp only [CosmosDBService.create_asset_metadata] at h
    by_cases hany : cs.any (fun d => d.id = ad.id.getD genId &&
        d.media_type = ad.media_type.getD "unknown") = true
    · rw [if_pos hany] at h
      exact absurd h (by simp)
    · rw [if_neg hany] at h
      simp only [Except.ok.injEq, Prod.mk.injEq] at h
      rw [← h.1]
      refine ⟨rfl, rfl, ?_⟩
      intro hid
      simp [hid]
  · intro hex
    have hany : cs.any (fun d => d.id = ad.id.getD genId &&
        d.media_type = ad.media_type.getD "unknown") = true := by
      rw [List.any_eq_true]
      obtain ⟨d, hd, h1, h2⟩ := hex
      exact ⟨d, hd, by simp [h1, h2]⟩
    simp only [CosmosDBService.create_asset_metadata]
    rw [if_pos hany]
  · intro doc hdoc d cs' h
    simp only [CosmosDBService.update_asset_metadata] at h
    rw [hdoc] at h
    simp only [Except.ok.injEq, Prod.mk.injEq] at h
    rw [← h.1]
    exact ⟨rfl, rfl⟩
  · intro h
    simp only [CosmosDBService.update_asset_metadata]
    rw [h]

/-- C8 witness: the amended statement evaluated on a one-document state —
the conflict branch on a present pair and the NotFound branch on an absent
one. -/
theorem C8_upsert_amended_witness :
    CosmosDBService.create_asset_metadata 5 "gen"
        { id := some "x", media_type := some "image", fields := [] }
        [{ id := "x", media_type := "image", created_at := 0, updated_at := 0,
           fields := [] }] =
      Except.error CosmosDBService.CosmosErr.conflict ∧
    CosmosDBService.update_asset_metadata 5 "y" "image" []
        [{ id := "x", media_type := "image", created_at := 0, updated_at := 0,
           fields := [] }] =
      Except.error CosmosDBService.CosmosErr.notFound :=
  ⟨(C8_upsert_amended 5 "gen"
      { id := some "x", media_type := some "image", fields := [] }
      [{ id := "x", media_type := "image", created_at := 0, updated_at := 0,
         fields := [] }] "x" "image" []).2.1
    ⟨{ id := "x", media_type := "image", created_at := 0, updated_at := 0,
       fields := [] }, by decide, rfl, rfl⟩,
   (C8_upsert_amended 5 "gen"
      { id := some "x", media_type := some "image", fields := [] }
      [{ id := "x", media_type := "image", created_at := 0, updated_at := 0,
         fields := [] }] "y" "image" []).2.2.2 (by decide)⟩

/-! C1: create/save dual-write policy. -/

theorem upload_asset_stores (fn : String) (ty : MediaType)
    (md : List (String × Option String)) (fp : Option String) (sfx : String)
    (now : Nat) (content : List Nat) (st : BlobStore) :
    ∃ b, lookupBlob
        (AzureBlobStorageService.upload_asset fn ty md fp sfx now content
          st).2
        (AzureBlobStorageService.upload_asset fn ty md fp sfx now content
          st).1.container
        (AzureBlobStorageService.upload_asset fn ty md fp sfx now content
          st).1.blob_name = some b ∧ b.content = content := by
  dsimp only [AzureBlobStorageService.upload_asset]
  exact ⟨_, lookupBlob_upload_self _ _ _ _, rfl⟩

/-- C1: the dual-write policy of the generated-image save.  A failing
object-store put aborts the whole operation as a hard 500 error, with no
index write attempted and both stores untouched.  After a successful put the
operation reports success, the uploaded bytes are retrievable from the image
container under the returned blob name, the index write (when a Cosmos
service is configured) strictly follows the successful put in the event
trace, a failing index write leaves the response and the stored bytes
unaffected (the theorem is quantified over index_fails), and an unconfigured
or unavailable index (cosmos_service = false) yields the same success with
no index write at all. -/
theorem C1_save_dual_write (svc put_fails index_fails : Bool) (fn : String)
    (fp : Option String) (content : List Nat)
    (md : List (String × Option String)) (sfx : String) (now : Nat)
    (st : BlobStore) (cs : CosmosDBService.CosmosState) :
    (put_fails = true →
      (Images.save_generated_image svc put_fails index_fails fn fp content md
        sfx now st cs).1 =
        Except.error (HErr.server "Error saving generated images") ∧
      (Images.save_generated_image svc put_fails index_fails fn fp content md
        sfx now st cs).2.1 = st ∧
      (Images.save_generated_image svc put_fails index_fails fn fp content md
        sfx now st cs).2.2.1 = cs ∧
      (Images.save_generated_image svc put_fails index_fails fn fp content md
        sfx now st cs).2.2.2 = [Images.SaveEv.putFail]) ∧
    (put_fails = false →
      (∃ res, (Images.save_generated_image svc put_fails index_fails fn fp
          content md sfx now st cs).1 = Except.ok res ∧
        res.container = imageContainer ∧
        ∃ b, lookupBlob (Images.save_generated_image svc put_fails index_fails
            fn fp content md sfx now st cs).2.1 imageContainer res.blob_name =
          some b ∧ b.content = content) ∧
      (Images.save_generated_image svc put_fails index_fails fn fp content md
        sfx now st cs).2.2.2.head? = some Images.SaveEv.putOk ∧
      (svc = false →
        (Images.save_generated_image svc put_fails index_fails fn fp content
          md sfx now st cs).2.2.2 = [Images.SaveEv.putOk])) := by
  constructor
  · intro h
    subst h
    exact ⟨rfl, rfl, rfl, rfl⟩
  · intro h
    subst h
    have hup := upload_asset_stores fn MediaType.image md fp sfx now content st
    cases svc with
    | true =>
      refine ⟨⟨(AzureBlobStorageService.upload_asset fn MediaType.image md fp
        sfx now content st).1, rfl, rfl, ?_⟩, rfl, by intro h0; cases h0⟩
      exact hup
    | false =>
      refine ⟨⟨(AzureBlobStorageService.upload_asset fn MediaType.image md fp
        sfx now content st).1, rfl, rfl, ?_⟩, rfl, fun _ => rfl⟩
      exact hup

/-- C1 witness: the save evaluated at concrete inputs — a failing put yields
the hard 500 error, and with a configured index whose write fails the trace
still begins with the successful put. -/
theorem C1_save_dual_write_witness :
    (Images.save_generated_image true true false "cat.png" (some "pets")
        [7, 8] [] "u1" 3 ⟨[]⟩ []).1 =
      Except.error (HErr.server "Error saving generated images") ∧
    (Images.save_generated_image true false true "cat.png" (some "pets")
        [7, 8] [] "u1" 3 ⟨[]⟩ []).2.2.2.head? = some Images.SaveEv.putOk :=
  ⟨((C1_save_dual_write true true false "cat.png" (some "pets") [7, 8] []
      "u1" 3 ⟨[]⟩ []).1 rfl).1,
   ((C1_save_dual_write true false true "cat.png" (some "pets") [7, 8] []
      "u1" 3 ⟨[]⟩ []).2 rfl).2.1⟩

/-! C7: batch threshold behavior. -/

theorem foldl_preserve_ne_nil {σ α β : Type} (f : List β × σ → α → List β × σ)
    (hf : ∀ acc a, (f acc a).1 ≠ []) :
    ∀ (l : List α) (acc : List β × σ), l ≠ [] → (l.foldl f acc).1 ≠ [] := by
  intro l
  induction l with
  | nil => intro acc h; exact absurd rfl h
  | cons a t ih =>
    intro acc _
    rw [List.foldl_cons]
    by_cases ht : t = []
    · rw [ht]
      exact hf acc a
    · exact ih (f acc a) ht

/-- C7: threshold-triggered background execution for batch delete and batch
move.  A non-empty batch below the threshold (11 for delete: size > 10 goes
to background; 6 for move: size > 5) executes synchronously and answers with
background_task = false and a non-empty per-item result map; a batch at or
above the threshold answers immediately with background_task = true and an
empty result map. -/
theorem C7_batch_threshold (names : List String) (cn tgt : String)
    (st : BlobStore) (h : names ≠ []) :
    ((names.length ≤ 10 → ∃ r st',
        Batch.delete_multiple_assets names none (some cn) st =
          (Except.ok r, st') ∧ r.background_task = false ∧ r.results ≠ []) ∧
     (10 < names.length → ∃ st',
        Batch.delete_multiple_assets names none (some cn) st =
          (Except.ok { success := true,
                       message := "Deletion started in background",
                       total := names.length, results := [],
                       background_task := true }, st'))) ∧
    ((names.length ≤ 5 → ∃ r st',
        Batch.move_multiple_assets names none (some cn) tgt st =
          (Except.ok r, st') ∧ r.background_task = false ∧ r.results ≠ []) ∧
     (5 < names.length → ∃ r st',
        Batch.move_multiple_assets names none (some cn) tgt st =
          (Except.ok r, st') ∧ r.background_task = true ∧
          r.results = [])) := by
  constructor
  · constructor
    · intro hle
      simp only [Batch.delete_multiple_assets, containerOf]
      rw [if_neg h, if_neg (by omega : ¬ names.length > 10)]
      refine ⟨_, _, rfl, rfl, ?_⟩
      exact foldl_preserve_ne_nil _
        (fun acc a => dictSet_ne_nil _ _ _) names ([], st) h
    · intro hgt
      simp only [Batch.delete_multiple_assets, containerOf]
      rw [if_neg h, if_pos (by omega : names.length > 10)]
      exact ⟨st, rfl⟩
  · constructor
    · intro hle
      simp only [Batch.move_multiple_assets, containerOf]
      rw [if_neg h, if_neg (by omega : ¬ names.length > 5)]
      refine ⟨_, _, rfl, rfl, ?_⟩
      exact foldl_preserve_ne_nil _
        (fun acc a => dictSet_ne_nil _ _ _) names ([], _) h
    · intro hgt
      simp only [Batch.move_multiple_assets, containerOf]
      rw [if_neg h, if_pos (by omega : names.length > 5)]
      exact ⟨_, _, rfl, rfl, rfl⟩

/-- C7 witness: a one-item batch runs synchronously with a non-empty result
map; a six-item batch move goes to the background with an empty map. -/
theorem C7_batch_threshold_witness :
    (∃ r st', Batch.delete_multiple_assets ["a"] none (some "images") ⟨[]⟩ =
      (Except.ok r, st') ∧ r.background_task = false ∧ r.results ≠ []) ∧
    (∃ r st', Batch.move_multiple_assets ["a", "b", "c", "d", "e", "f"] none
        (some "images") "t" ⟨[]⟩ =
      (Except.ok r, st') ∧ r.background_task = true ∧ r.results = []) :=
  ⟨(C7_batch_threshold ["a"] "images" "t" ⟨[]⟩ (by decide)).1.1 (by decide),
   (C7_batch_threshold ["a", "b", "c", "d", "e", "f"] "images" "t" ⟨[]⟩
     (by decide)).2.2 (by decide)⟩

/-! C6: gallery read planning. -/

theorem mkGalleryItems_no_marker (rs : AzureBlobStorageService.ListBlobsResult)
    (mt : MediaType) (cn : String) (it : Gallery.GalleryItem)
    (h : it ∈ Gallery.mkGalleryItems rs mt cn) :
    strEndsWith it.name ".folder" = false := by
  unfold Gallery.mkGalleryItems at h
  rw [List.mem_map] at h
  obtain ⟨b, hb, rfl⟩ := h
  rw [List.mem_filter] at hb
  simpa using hb.2

/-- C6 counterexample: the claim says that with a Metadata Index configured
and no object-store continuation token the page is served by a single index
query with no cross-container fan-out; but the endpoint takes no index
handle at all — on a request with no continuation token it still performs
exactly one object-store listing per container (two listings, no index
query). -/
theorem C6_gallery_counterexample :
    (Gallery.get_gallery_items 50 0 none none none
        ⟨[(("images", "cat.png"),
           { content := [1], contentType := some "image/png",
             creationTime := 0, lastModified := 5, metadata := [] })]⟩).2 =
      [Gallery.PlanEv.storeList "images",
       Gallery.PlanEv.storeList "videos"] ∧
    (Gallery.get_gallery_items 50 0 none none none
        ⟨[(("images", "cat.png"),
           { content := [1], contentType := some "image/png",
             creationTime := 0, lastModified := 5, metadata := [] })]⟩
      ).1.items.length = 1 := by
  constructor
  · decide
  · dsimp only [Gallery.get_gallery_items]
    rw [List.drop_zero, List.length_take, List.length_mergeSort]
    decide

/-- C6 amended: every combined gallery read — whether or not a Metadata
Index is configured, and whether or not a continuation token was supplied —
fans out to the object store once per container (images and videos), never
queries the Metadata Index, skips folder-marker blobs, sorts the merged
entries by last-modified newest-first, and returns at most limit items after
applying the offset client-side. -/
theorem C6_gallery_amended (limit offset : Nat)
    (tok pref fp : Option String) (st : BlobStore) :
    (Gallery.get_gallery_items limit offset tok pref fp st).2 =
      [Gallery.PlanEv.storeList imageContainer,
       Gallery.PlanEv.storeList videoContainer] ∧
    Gallery.PlanEv.indexQuery ∉
      (Gallery.get_gallery_items limit offset tok pref fp st).2 ∧
    (Gallery.get_gallery_items limit offset tok pref fp st).1.items.length ≤
      limit ∧
    (∀ it ∈ (Gallery.get_gallery_items limit offset tok pref fp st).1.items,
      strEndsWith it.name ".folder" = false) ∧
    List.Pairwise (fun a b => b.last_modified ≤ a.last_modified)
      (Gallery.get_gallery_items limit offset tok pref fp st).1.items := by
  refine ⟨rfl, by simp [Gallery.get_gallery_items], ?_, ?_, ?_⟩
  · dsimp only [Gallery.get_gallery_items]
    exact List.length_take_le limit _
  · intro it hit
    dsimp only [Gallery.get_gallery_items] at hit
    have h1 := List.Sublist.mem hit
      ((List.take_sublist _ _).trans (List.drop_sublist _ _))
    have h2 := List.mem_mergeSort.mp h1
    rcases List.mem_append.mp h2 with h3 | h3
    · exact mkGalleryItems_no_marker _ _ _ _ h3
    · exact mkGalleryItems_no_marker _ _ _ _ h3
  · dsimp only [Gallery.get_gallery_items]
    have hs := @List.sorted_mergeSort Gallery.GalleryItem
      (fun a b : Gallery.GalleryItem =>
        decide (b.last_modified ≤ a.last_modified))
      (fun a b c hab hbc => by
        simp only [decide_eq_true_eq] at hab hbc ⊢
        exact Nat.le_trans hbc hab)
      (fun a b => by
        simp only [Bool.or_eq_true, decide_eq_true_eq]
        exact Nat.le_total b.last_modified a.last_modified)
      (Gallery.mkGalleryItems
        (AzureBlobStorageService.list_blobs imageContainer
          (match fp with
           | some f => some (AzureBlobStorageService.normalize_folder_path f)
           | none => pref) limit tok st) MediaType.image imageContainer ++
        Gallery.mkGalleryItems
        (AzureBlobStorageService.list_blobs videoContainer
          (match fp with
           | some f => some (AzureBlobStorageService.normalize_folder_path f)
           | none => pref) limit tok st) MediaType.video videoContainer)
    have hs2 := hs.imp (fun h => by simpa using h)
    exact hs2.sublist ((List.take_sublist _ _).trans (List.drop_sublist _ _))
      |>.imp (fun h => h)

/-- C6 witness: the amended statement applied at a concrete request. -/
theorem C6_gallery_amended_witness :
    (Gallery.get_gallery_items 50 0 none none none ⟨[]⟩).2 =
      [Gallery.PlanEv.storeList imageContainer,
       Gallery.PlanEv.storeList videoContainer] ∧
    (Gallery.get_gallery_items 50 0 none none none ⟨[]⟩).1.items.length ≤ 50 :=
  ⟨(C6_gallery_amended 50 0 none none none ⟨[]⟩).1,
   (C6_gallery_amended 50 0 none none none ⟨[]⟩).2.2.1⟩
